import Mathlib

/-!
Shallow embedding of the python-docx typed marshalling core:
the simple-type descriptors of `docx/oxml/simpletypes.py` and the
paragraph-border facade of `docx/text/border.py` over the element model of
`docx/oxml/text/border.py`.

Python strings are embedded as `String`, Python ints as `Int`, and a raised
exception as `none` in an `Option` result.  Arithmetic that the source
performs on Python floats over values that are exact in the model
(half-points, unit conversion) is embedded as exact integer/rational
arithmetic, matching the spec's description of the conversions.
-/

namespace Docx

/-! ### Decimal strings: model of Python `str`/`int`/`float` on integers -/

/-- Character for the decimal digit `d` (`'0'`–`'9'` when `d < 10`). -/
def digitChar (d : Nat) : Char := Char.ofNat (48 + d)

/-- Little-endian decimal digits of `n`, with an explicit fuel argument so
that the definition is structurally recursive. -/
def natDigitsRevAux : Nat → Nat → List Nat
  | 0, _ => []
  | _ + 1, 0 => []
  | fuel + 1, n + 1 => ((n + 1) % 10) :: natDigitsRevAux fuel ((n + 1) / 10)

/-- Little-endian decimal digits of `n` (empty for `n = 0`). -/
def natDigitsRev (n : Nat) : List Nat := natDigitsRevAux n n

/-- Modelled from Python's `str()` applied to a nonnegative integer. -/
def pyStrNat (n : Nat) : String :=
  if n = 0 then "0" else ⟨((natDigitsRev n).map digitChar).reverse⟩

/-- Modelled from Python's `str()` applied to an integer. -/
def pyStrInt (i : Int) : String :=
  if i < 0 then "-" ++ pyStrNat i.natAbs else pyStrNat i.toNat

/-- Numeric value of a decimal digit character, `none` for a non-digit. -/
def digitVal (c : Char) : Option Nat :=
  if 48 ≤ c.toNat ∧ c.toNat ≤ 57 then some (c.toNat - 48) else none

/-- Left-to-right accumulation of decimal digits; fails on a non-digit. -/
def parseDigitsAux : List Char → Nat → Option Nat
  | [], acc => some acc
  | c :: r, acc =>
    match digitVal c with
    | some d => parseDigitsAux r (acc * 10 + d)
    | none => none

/-- Value of a nonempty all-digit character list, `none` otherwise. -/
def parseDigits (cs : List Char) : Option Nat :=
  match cs with
  | [] => none
  | _ => parseDigitsAux cs 0

/-- Modelled from Python's `int()` applied to a string: an optional sign
followed by decimal digits.  (Surrounding whitespace and underscores, which
Python also accepts, never arise in this core and are not modelled.) -/
def pyParseInt (s : String) : Option Int :=
  match s.data with
  | [] => none
  | c :: rest =>
    if c = '-' then (parseDigits rest).map (fun n => -(n : Int))
    else if c = '+' then (parseDigits rest).map (fun n => (n : Int))
    else (parseDigits (c :: rest)).map (fun n => (n : Int))

/-- Python's `c in s` membership test on a string. -/
def pyIn (c : Char) (s : String) : Bool := s.data.contains c

/-- Value of an optional digit run: the empty run counts as 0, as in the
integer or fractional part of Python float literals like `".5"` or `"5."`. -/
def parseDigitsOpt (cs : List Char) : Option Nat :=
  match cs with
  | [] => some 0
  | _ => parseDigitsAux cs 0

/-- Splits a character list at the first `'.'`, if any. -/
def splitDot : List Char → List Char × Option (List Char)
  | [] => ([], none)
  | c :: r =>
    if c = '.' then ([], some r)
    else
      let p := splitDot r
      (c :: p.1, p.2)

/-- Modelled from Python's `float()` restricted to plain decimal literals
(optional sign, digits, optional point and digits), which is the lexical
form the universal-measure strings use.  The result is returned exactly as
a signed numerator `z` and a power-of-ten exponent `d`, for the value
`z / 10 ^ d`. -/
def pyFloat (s : String) : Option (Int × Nat) :=
  let p : Int × List Char :=
    match s.data with
    | '-' :: r => (-1, r)
    | '+' :: r => (1, r)
    | l => (1, l)
  match splitDot p.2 with
  | (ip, none) => (parseDigits ip).map (fun n => (p.1 * n, 0))
  | (ip, some fp) =>
    if ip.isEmpty && fp.isEmpty then none
    else
      match parseDigitsOpt ip, parseDigitsOpt fp with
      | some i, some f => some (p.1 * (i * 10 ^ fp.length + f), fp.length)
      | _, _ => none

/-- The rational value denoted by a parsed Python decimal literal. -/
def pyFloatQ (s : String) : Option ℚ :=
  (pyFloat s).map (fun p => (p.1 : ℚ) / 10 ^ p.2)

/-- Modelled from Python 3's `round()` (round half to even) on the exact
fraction `a / b` with `b > 0`, as used on the product of a parsed quantity
and an integer unit multiplier. -/
def pyRoundFrac (a b : Int) : Int :=
  let f := Int.fdiv a b
  let r := a - f * b
  if 2 * r < b then f
  else if b < 2 * r then f + 1
  else if f % 2 = 0 then f else f + 1

/-! ### Simple types (`docx/oxml/simpletypes.py`)

Each descriptor is embedded by its three class methods: `convert_from_xml`
(raising = `none`), `validate` (a decidable pass/fail), and
`convert_to_xml`; `from_xml` and `to_xml` are the compositions defined on
`BaseSimpleType`.  The `Length` family (`Emu`, `Pt`, `Twips`,
`EighthsOfPoint`, from `docx/shared.py`, which is not part of the sources)
is modelled from the spec: lengths are a single integer EMU count, 914400
EMU per inch and 12700 EMU per point, converted to external units by exact
or toward-zero truncating arithmetic. -/

/-- `validate_int_in_range` on `BaseSimpleType`: range test on an integer. -/
def validate_int_in_range (v lo hi : Int) : Bool :=
  decide (lo ≤ v) && decide (v ≤ hi)

/-- Modelled from the spec: `Pt(points)` for a whole number of points,
`points * 12700` EMU. -/
def Pt (points : Int) : Int := points * 12700

/-- Modelled from the spec: `Pt(n / 2.0)` as used by `ST_HpsMeasure`,
`n` half-points = `n * 6350` EMU (exact). -/
def PtHalf (n : Int) : Int := n * 6350

/-- Modelled from the spec: `EighthsOfPoint(n)`, `n * 12700 / 8` EMU
truncated toward zero. -/
def EighthsOfPoint (n : Int) : Int := Int.tdiv (n * 12700) 8

/-- Modelled from the spec: `Emu(n)`, already in EMU. -/
def Emu (n : Int) : Int := n

namespace XsdBoolean

/-- `XsdBoolean.convert_from_xml`: accepts exactly `"1"`, `"0"`, `"true"`,
`"false"`. -/
def convert_from_xml (s : String) : Option Bool :=
  if s = "1" ∨ s = "0" ∨ s = "true" ∨ s = "false" then
    some (decide (s = "1" ∨ s = "true"))
  else none

/-- `XsdBoolean.convert_to_xml`: the dict `{True: '1', False: '0'}`. -/
def convert_to_xml (b : Bool) : String := if b then "1" else "0"

/-- `XsdBoolean.validate` over the values that reach it in this core
(a Python bool or `None`): passes exactly on `True` and `False`. -/
def validate : Option Bool → Bool
  | some _ => true
  | none => false

/-- `BaseSimpleType.from_xml`. -/
def from_xml (s : String) : Option Bool := convert_from_xml s

/-- `BaseSimpleType.to_xml`: validate, then convert. -/
def to_xml (v : Option Bool) : Option String :=
  if validate v then v.map convert_to_xml else none

end XsdBoolean

namespace ST_OnOff

/-- `ST_OnOff.convert_from_xml`: additionally accepts `"on"` / `"off"`. -/
def convert_from_xml (s : String) : Option Bool :=
  if s = "1" ∨ s = "0" ∨ s = "true" ∨ s = "false" ∨ s = "on" ∨ s = "off" then
    some (decide (s = "1" ∨ s = "true" ∨ s = "on"))
  else none

/-- Inherited `XsdBoolean.convert_to_xml`. -/
def convert_to_xml (b : Bool) : String := XsdBoolean.convert_to_xml b

/-- Inherited `XsdBoolean.validate`. -/
def validate (v : Option Bool) : Bool := XsdBoolean.validate v

/-- `BaseSimpleType.from_xml`. -/
def from_xml (s : String) : Option Bool := convert_from_xml s

/-- `BaseSimpleType.to_xml`. -/
def to_xml (v : Option Bool) : Option String :=
  if validate v then v.map convert_to_xml else none

end ST_OnOff

namespace XsdInt

/-- `XsdInt.validate`: 32-bit signed range. -/
def validate (v : Int) : Bool := validate_int_in_range v (-2147483648) 2147483647

end XsdInt

namespace XsdLong

/-- `XsdLong.validate`: 64-bit signed range. -/
def validate (v : Int) : Bool :=
  validate_int_in_range v (-9223372036854775808) 9223372036854775807

end XsdLong

namespace XsdUnsignedInt

/-- `XsdUnsignedInt.validate`: 32-bit unsigned range. -/
def validate (v : Int) : Bool := validate_int_in_range v 0 4294967295

end XsdUnsignedInt

namespace XsdUnsignedLong

/-- `XsdUnsignedLong.validate`: 64-bit unsigned range. -/
def validate (v : Int) : Bool := validate_int_in_range v 0 18446744073709551615

end XsdUnsignedLong

namespace ST_CoordinateUnqualified

/-- `ST_CoordinateUnqualified.validate`. -/
def validate (v : Int) : Bool :=
  validate_int_in_range v (-27273042329600) 27273042316900

end ST_CoordinateUnqualified

/-! #### Universal measure -/

namespace ST_UniversalMeasure

/-- EMU per two-letter unit code; `Length._EMUS_PER_MM = 36000`,
`Length._EMUS_PER_CM = 360000` and `Length._EMUS_PER_PT = 12700` are
modelled from the spec (914400 EMU per inch); `'in'`, `'pc'`, `'pi'` are
literal in the source. -/
def unitMultiplier (cs : List Char) : Option Int :=
  if cs = "mm".data then some 36000
  else if cs = "cm".data then some 360000
  else if cs = "in".data then some 914400
  else if cs = "pt".data then some 12700
  else if cs = "pc".data then some 152400
  else if cs = "pi".data then some 152400
  else none

/-- `ST_UniversalMeasure.convert_from_xml`: split off the last two
characters as the unit code, parse the rest as a decimal quantity, and
round quantity × multiplier to the nearest EMU. -/
def convert_from_xml (s : String) : Option Int :=
  let n := s.data.length
  let float_part : List Char := s.data.take (n - 2)
  let units_part : List Char := s.data.drop (n - 2)
  match pyFloat ⟨float_part⟩, unitMultiplier units_part with
  | some q, some m => some (Emu (pyRoundFrac (q.1 * m) (10 ^ q.2)))
  | _, _ => none

end ST_UniversalMeasure

/-! #### Length measures -/

namespace ST_PtsMeasure

/-- `ST_PtsMeasure.convert_from_xml`. -/
def convert_from_xml (s : String) : Option Int :=
  if pyIn 'm' s || pyIn 'n' s || pyIn 'p' s then
    ST_UniversalMeasure.convert_from_xml s
  else (pyParseInt s).map Pt

/-- `ST_PtsMeasure.convert_to_xml`: `str(int(emu.pt))`, the EMU value
truncated to whole points. -/
def convert_to_xml (v : Int) : String := pyStrInt (Int.tdiv v 12700)

/-- Inherited `XsdUnsignedLong.validate`. -/
def validate (v : Int) : Bool := XsdUnsignedLong.validate v

/-- `BaseSimpleType.from_xml`. -/
def from_xml (s : String) : Option Int := convert_from_xml s

/-- `BaseSimpleType.to_xml`. -/
def to_xml (v : Int) : Option String :=
  if validate v then some (convert_to_xml v) else none

end ST_PtsMeasure

namespace ST_HpsMeasure

/-- `ST_HpsMeasure.convert_from_xml`: `Pt(int(str_value) / 2.0)`. -/
def convert_from_xml (s : String) : Option Int :=
  if pyIn 'm' s || pyIn 'n' s || pyIn 'p' s then
    ST_UniversalMeasure.convert_from_xml s
  else (pyParseInt s).map PtHalf

/-- `ST_HpsMeasure.convert_to_xml`: `str(int(emu.pt * 2))`, the EMU value
truncated to whole half-points. -/
def convert_to_xml (v : Int) : String := pyStrInt (Int.tdiv (2 * v) 12700)

/-- Inherited `XsdUnsignedLong.validate`. -/
def validate (v : Int) : Bool := XsdUnsignedLong.validate v

/-- `BaseSimpleType.from_xml`. -/
def from_xml (s : String) : Option Int := convert_from_xml s

/-- `BaseSimpleType.to_xml`. -/
def to_xml (v : Int) : Option String :=
  if validate v then some (convert_to_xml v) else none

end ST_HpsMeasure

namespace ST_EighthsOfPointMeasure

/-- `ST_EighthsOfPointMeasure.convert_from_xml`. -/
def convert_from_xml (s : String) : Option Int :=
  if pyIn 'i' s || pyIn 'm' s || pyIn 'p' s then
    ST_UniversalMeasure.convert_from_xml s
  else (pyParseInt s).map EighthsOfPoint

/-- `ST_EighthsOfPointMeasure.convert_to_xml`: modelled from the spec,
`emu.eighths_of_point` converts then truncates toward zero. -/
def convert_to_xml (v : Int) : String := pyStrInt (Int.tdiv (8 * v) 12700)

/-- Inherited `XsdUnsignedLong.validate`. -/
def validate (v : Int) : Bool := XsdUnsignedLong.validate v

/-- `BaseSimpleType.from_xml`. -/
def from_xml (s : String) : Option Int := convert_from_xml s

/-- `BaseSimpleType.to_xml`. -/
def to_xml (v : Int) : Option String :=
  if validate v then some (convert_to_xml v) else none

end ST_EighthsOfPointMeasure

namespace ST_Coordinate

/-- `ST_Coordinate.validate` delegates to `ST_CoordinateUnqualified`. -/
def validate (v : Int) : Bool := ST_CoordinateUnqualified.validate v

end ST_Coordinate

/-! #### String enumerations

`BaseStringType.convert_from_xml` returns its argument unchanged and
`convert_to_xml` is also the identity; `BaseStringEnumerationType.validate`
additionally checks membership in the class's `_members` tuple. -/

namespace ST_Merge

/-- `ST_Merge._members`. -/
def members : List String := ["continue", "restart"]

/-- Inherited `BaseStringType.convert_from_xml`: the identity. -/
def convert_from_xml (s : String) : String := s

/-- Inherited `BaseStringType.convert_to_xml`: the identity. -/
def convert_to_xml (s : String) : String := s

/-- Inherited `BaseStringEnumerationType.validate`: string type check
(automatic here) plus case-sensitive membership in `_members`. -/
def validate (v : String) : Bool := members.contains v

/-- `BaseSimpleType.from_xml`. -/
def from_xml (s : String) : String := convert_from_xml s

/-- `BaseSimpleType.to_xml`. -/
def to_xml (v : String) : Option String :=
  if validate v then some (convert_to_xml v) else none

end ST_Merge

namespace ST_BorderValue

/-- `ST_BorderValue._members`: the catalog of border pattern styles. -/
def members : List String :=
  ["apples", "archedScallops", "babyPacifier", "babyRattle",
   "balloons3Colors", "balloonsHotAir", "basicBlackDashes",
   "basicBlackDots", "basicBlackSquares", "basicThinLines",
   "basicWhiteDashes", "basicWhiteDots", "basicWhiteSquares",
   "basicWideInline", "basicWideMidline", "basicWideOutline", "bats",
   "birds", "birdsFlight", "cabins", "cakeSlice", "candyCorn",
   "celticKnotwork", "certificateBanner", "chainLink", "champagneBottle",
   "checkedBarBlack", "checkedBarColor", "checkered", "christmasTree",
   "circlesLines", "circlesRectangles", "classicalWave", "clocks",
   "compass", "confetti", "confettiGrays", "confettiOutline",
   "confettiStreamers", "confettiWhite", "cornerTriangles",
   "couponCutoutDashes", "couponCutoutDots", "crazyMaze",
   "creaturesButterfly", "creaturesFish", "creaturesInsects",
   "creaturesLadyBug", "crossStitch", "cup", "dashDotStroked", "dashed",
   "dashSmallGap", "decoArch", "decoArchColor", "decoBlocks",
   "diamondsGray", "dotDash", "dotDotDash", "dotted", "double", "doubleD",
   "doubleDiamonds", "doubleWave", "earth1", "earth2",
   "eclipsingSquares1", "eclipsingSquares2", "eggsBlack", "fans", "film",
   "firecrackers", "flowersBlockPrint", "flowersDaisies",
   "flowersModern1", "flowersModern2", "flowersPansy", "flowersRedRose",
   "flowersRoses", "flowersTeacup", "flowersTiny", "gems",
   "gingerbreadMan", "gradient", "handmade1", "handmade2", "heartBalloon",
   "heartGray", "hearts", "heebieJeebies", "holly", "houseFunky",
   "hypnotic", "iceCreamCones", "inset", "lightBulb", "lightning1",
   "lightning2", "mapleLeaf", "mapleMuffins", "mapPins", "marquee",
   "marqueeToothed", "moons", "mosaic", "musicNotes", "nil", "none",
   "northwest", "outset", "ovals", "packages", "palmsBlack", "palmsColor",
   "paperClips", "papyrus", "partyFavor", "partyGlass", "pencils",
   "people", "peopleHats", "peopleWaving", "poinsettias", "postageStamp",
   "pumpkin1", "pushPinNote1", "pushPinNote2", "pyramids",
   "pyramidsAbove", "quadrants", "rings", "safari", "sawtooth",
   "sawtoothGray", "scaredCat", "seattle", "shadowedSquares", "shapes1",
   "shapes2", "sharksTeeth", "shorebirdTracks", "single", "skyrocket",
   "snowflakeFancy", "snowflakes", "sombrero", "southwest", "stars",
   "stars3d", "starsBlack", "starsShadowed", "starsTop", "sun",
   "swirligig", "thick", "thickThinLargeGap", "thickThinMediumGap",
   "thickThinSmallGap", "thinThickLargeGap", "thinThickMediumGap",
   "thinThickSmallGap", "thinThickThinLargeGap",
   "thinThickThinMediumGap", "thinThickThinSmallGap", "threeDEmboss",
   "threeDEngrave", "tornPaper", "tornPaperBlack", "trees", "triangle1",
   "triangle2", "triangleCircle1", "triangleCircle2", "triangleParty",
   "triangles", "tribal1", "tribal2", "tribal3", "tribal4", "tribal5",
   "tribal6", "triple", "twistedLines1", "twistedLines2", "vine", "wave",
   "waveline", "weavingAngles", "weavingBraid", "weavingRibbon",
   "weavingStrips", "whiteFlowers", "woodwork", "xIllusions",
   "zanyTriangles", "zigZag", "zigZagStitch"]

/-- Inherited `BaseStringType.convert_from_xml`: the identity. -/
def convert_from_xml (s : String) : String := s

/-- Inherited `BaseStringType.convert_to_xml`: the identity. -/
def convert_to_xml (s : String) : String := s

/-- Inherited `BaseStringEnumerationType.validate`. -/
def validate (v : String) : Bool := members.contains v

/-- `BaseSimpleType.from_xml`. -/
def from_xml (s : String) : String := convert_from_xml s

/-- `BaseSimpleType.to_xml`. -/
def to_xml (v : String) : Option String :=
  if validate v then some (convert_to_xml v) else none

end ST_BorderValue

/-! #### Hex colors -/

/-- The value universe reaching `ST_HexColor`: either a Python string (such
as the `'auto'` sentinel `ST_HexColorAuto.AUTO`) or an `RGBColor` triple. -/
inductive HexColorValue where
  | str (s : String)
  | rgb (r g b : Nat)
deriving DecidableEq, Repr

/-- Numeric value of a hexadecimal digit character, upper or lower case. -/
def hexDigitVal (c : Char) : Option Nat :=
  if 48 ≤ c.toNat ∧ c.toNat ≤ 57 then some (c.toNat - 48)
  else if 65 ≤ c.toNat ∧ c.toNat ≤ 70 then some (c.toNat - 55)
  else if 97 ≤ c.toNat ∧ c.toNat ≤ 102 then some (c.toNat - 87)
  else none

/-- Character for `d < 16` in uppercase hexadecimal. -/
def hexDigitChar (d : Nat) : Char :=
  if d < 10 then Char.ofNat (48 + d) else Char.ofNat (55 + d)

/-- The two uppercase hex digits of a byte, Python `'%02X' % n`. -/
def hex2 (n : Nat) : List Char := [hexDigitChar (n / 16 % 16), hexDigitChar (n % 16)]

namespace RGBColor

/-- Modelled from the spec: `RGBColor.from_string` decodes exactly six hex
digits into a triple, raising on any other input (bad hex-color length). -/
def from_string (s : String) : Option HexColorValue :=
  match s.data with
  | [c1, c2, c3, c4, c5, c6] =>
    match hexDigitVal c1, hexDigitVal c2, hexDigitVal c3,
        hexDigitVal c4, hexDigitVal c5, hexDigitVal c6 with
    | some a, some b, some c, some d, some e, some f =>
      some (.rgb (16 * a + b) (16 * c + d) (16 * e + f))
    | _, _, _, _, _, _ => none
  | _ => none

end RGBColor

namespace ST_HexColor

/-- `ST_HexColor.convert_from_xml`: `'auto'` maps to the string sentinel
`ST_HexColorAuto.AUTO`, anything else through `RGBColor.from_string`. -/
def convert_from_xml (s : String) : Option HexColorValue :=
  if s = "auto" then some (.str "auto") else RGBColor.from_string s

/-- `ST_HexColor.convert_to_xml`: `'%02X%02X%02X' % value`; formatting a
non-triple raises. -/
def convert_to_xml : HexColorValue → Option String
  | .rgb r g b => some ⟨hex2 r ++ hex2 g ++ hex2 b⟩
  | .str _ => none

/-- `ST_HexColor.validate`: the value must be an `RGBColor` object. -/
def validate : HexColorValue → Bool
  | .rgb _ _ _ => true
  | .str _ => false

/-- `BaseSimpleType.from_xml`. -/
def from_xml (s : String) : Option HexColorValue := convert_from_xml s

/-- `BaseSimpleType.to_xml`. -/
def to_xml (v : HexColorValue) : Option String :=
  if validate v then convert_to_xml v else none

end ST_HexColor

/-! ### Element tree model (`docx/oxml/text/border.py`)

`CT_BorderSide` holds the raw attribute text of `w:val`, `w:sz`, `w:space`,
`w:color` (required) and `w:shadow` (optional); `CT_PBdr` holds the four
optional side children in their fixed canonical order; `CT_PPr` and the
paragraph element are restricted to the children this core touches.  The
`RequiredAttribute` / `OptionalAttribute` / `ZeroOrOne` machinery of
`docx/oxml/xmlchemy.py` is not part of the sources and is modelled from the
spec: a typed attribute read parses the stored text with the descriptor
(raising on a missing required attribute, yielding the absent sentinel for
a missing optional one), a write validates and renders the value to text
(assigning `None` to an optional attribute removes it), and `get_or_add`
creates the missing ancestor chain and an empty child only when absent. -/

/-- The four border sides. -/
inductive Side where
  | top
  | left
  | bottom
  | right
deriving DecidableEq

/-- A `<w:top>`/`<w:left>`/`<w:bottom>`/`<w:right>` child of `<w:pBdr>`,
as raw attribute text. -/
structure CT_BorderSide where
  val : Option String
  sz : Option String
  space : Option String
  color : Option String
  shadow : Option String
deriving DecidableEq

/-- A freshly created side element: no attributes yet. -/
def emptyBorderSide : CT_BorderSide := ⟨none, none, none, none, none⟩

/-- The `<w:pBdr>` element with its four optional side children. -/
structure CT_PBdr where
  top : Option CT_BorderSide
  left : Option CT_BorderSide
  bottom : Option CT_BorderSide
  right : Option CT_BorderSide
deriving DecidableEq

/-- The `<w:pPr>` element, restricted to the `<w:pBdr>` child. -/
structure CT_PPr where
  pBdr : Option CT_PBdr
deriving DecidableEq

/-- The paragraph element, restricted to the `<w:pPr>` child. -/
structure CT_P where
  pPr : Option CT_PPr
deriving DecidableEq

/-- A paragraph with no `pPr` at all. -/
def emptyP : CT_P := ⟨none⟩

/-- The side child of a `<w:pBdr>` selected by name. -/
def CT_PBdr.side (b : CT_PBdr) : Side → Option CT_BorderSide
  | .top => b.top
  | .left => b.left
  | .bottom => b.bottom
  | .right => b.right

/-- Replace one side child of a `<w:pBdr>`. -/
def CT_PBdr.setSide (b : CT_PBdr) : Side → Option CT_BorderSide → CT_PBdr
  | .top, v => { b with top := v }
  | .left, v => { b with left := v }
  | .bottom, v => { b with bottom := v }
  | .right, v => { b with right := v }

/-- `BorderSide._get_side_element`: navigate `pPr` → `pBdr` → side without
creating anything. -/
def CT_P.sideElm (p : CT_P) (s : Side) : Option CT_BorderSide :=
  match p.pPr with
  | none => none
  | some pr =>
    match pr.pBdr with
    | none => none
    | some b => b.side s

/-- `BorderSide._get_or_add_side_element` followed by a mutation of the
side element: get-or-add `pPr`, `pBdr` and the side child, then apply `f`
to the (possibly freshly created, empty) side element. -/
def CT_P.updateSide (p : CT_P) (s : Side) (f : CT_BorderSide → CT_BorderSide) : CT_P :=
  let pr : CT_PPr := p.pPr.getD ⟨none⟩
  let b : CT_PBdr := pr.pBdr.getD ⟨none, none, none, none⟩
  let se : CT_BorderSide := (b.side s).getD emptyBorderSide
  ⟨some ⟨some (b.setSide s (some (f se)))⟩⟩

/-! ### BorderSide facade (`docx/text/border.py`)

Property reads return `none` when the source raises, `some none` for the
Python `None` sentinel (absent side, or absent optional attribute) and
`some (some v)` for a typed value.  Property writes return the updated
paragraph element, or `none` when validation raises. -/

namespace BorderSide

/-- `BorderSide.val` getter. -/
def val_read (p : CT_P) (s : Side) : Option (Option String) :=
  match p.sideElm s with
  | none => some none
  | some se =>
    match se.val with
    | none => none
    | some raw => some (some (ST_BorderValue.from_xml raw))

/-- `BorderSide.sz` getter. -/
def sz_read (p : CT_P) (s : Side) : Option (Option Int) :=
  match p.sideElm s with
  | none => some none
  | some se =>
    match se.sz with
    | none => none
    | some raw => (ST_EighthsOfPointMeasure.from_xml raw).map some

/-- `BorderSide.space` getter. -/
def space_read (p : CT_P) (s : Side) : Option (Option Int) :=
  match p.sideElm s with
  | none => some none
  | some se =>
    match se.space with
    | none => none
    | some raw => (ST_PtsMeasure.from_xml raw).map some

/-- `BorderSide.color` getter. -/
def color_read (p : CT_P) (s : Side) : Option (Option HexColorValue) :=
  match p.sideElm s with
  | none => some none
  | some se =>
    match se.color with
    | none => none
    | some raw => (ST_HexColor.from_xml raw).map some

/-- `BorderSide.shadow` getter; the attribute is optional, so a missing
attribute is the absent sentinel, not an error. -/
def shadow_read (p : CT_P) (s : Side) : Option (Option Bool) :=
  match p.sideElm s with
  | none => some none
  | some se =>
    match se.shadow with
    | none => some none
    | some raw => (XsdBoolean.from_xml raw).map some

/-- `BorderSide.val` setter.  The source get-or-adds the side element and
then assigns the typed attribute, which validates and renders; a write
whose validation raises is collapsed to `none`. -/
def set_val (p : CT_P) (s : Side) (v : Option String) : Option CT_P :=
  match v with
  | none => none
  | some str =>
    match ST_BorderValue.to_xml str with
    | none => none
    | some raw => some (p.updateSide s (fun se => { se with val := some raw }))

/-- `BorderSide.sz` setter. -/
def set_sz (p : CT_P) (s : Side) (v : Option Int) : Option CT_P :=
  match v with
  | none => none
  | some z =>
    match ST_EighthsOfPointMeasure.to_xml z with
    | none => none
    | some raw => some (p.updateSide s (fun se => { se with sz := some raw }))

/-- `BorderSide.space` setter. -/
def set_space (p : CT_P) (s : Side) (v : Option Int) : Option CT_P :=
  match v with
  | none => none
  | some z =>
    match ST_PtsMeasure.to_xml z with
    | none => none
    | some raw => some (p.updateSide s (fun se => { se with space := some raw }))

/-- `BorderSide.color` setter. -/
def set_color (p : CT_P) (s : Side) (v : Option HexColorValue) : Option CT_P :=
  match v with
  | none => none
  | some c =>
    match ST_HexColor.to_xml c with
    | none => none
    | some raw => some (p.updateSide s (fun se => { se with color := some raw }))

/-- `BorderSide.shadow` setter: assigning `None` to the optional attribute
removes it (after the side element has been get-or-added); assigning a
bool renders it canonically. -/
def set_shadow (p : CT_P) (s : Side) (v : Option Bool) : Option CT_P :=
  match v with
  | none => some (p.updateSide s (fun se => { se with shadow := none }))
  | some b =>
    some (p.updateSide s (fun se => { se with shadow := some (XsdBoolean.convert_to_xml b) }))

end BorderSide

/-! ### ParagraphBorder facade (`docx/text/border.py`) -/

/-- A `ParagraphBorder` proxy: the paragraph element plus the four lazily
cached side-proxy slots (`_top`, `_left`, `_bottom`, `_right`); a
`BorderSide` proxy carries no state beyond its side name, so each cache
slot is just whether the slot attribute has been set. -/
structure ParagraphBorder where
  elm : CT_P
  cacheTop : Bool
  cacheLeft : Bool
  cacheBottom : Bool
  cacheRight : Bool
deriving DecidableEq

namespace ParagraphBorder

/-- The cache slot for a side. -/
def cache (pb : ParagraphBorder) : Side → Bool
  | .top => pb.cacheTop
  | .left => pb.cacheLeft
  | .bottom => pb.cacheBottom
  | .right => pb.cacheRight

/-- Fill the cache slot for a side. -/
def setCache (pb : ParagraphBorder) : Side → ParagraphBorder
  | .top => { pb with cacheTop := true }
  | .left => { pb with cacheLeft := true }
  | .bottom => { pb with cacheBottom := true }
  | .right => { pb with cacheRight := true }

/-- The side property getters (`top`, `left`, `bottom`, `right`): return
the cached proxy if the slot is set, otherwise probe the tree, caching the
proxy when the side element exists and returning `None` (here `false`)
without caching when it does not. -/
def get (pb : ParagraphBorder) (s : Side) : Bool × ParagraphBorder :=
  if pb.cache s then (true, pb)
  else
    match pb.elm.sideElm s with
    | none => (false, pb)
    | some _ => (true, pb.setCache s)

/-- The common body of the side setters: read each of the five properties
from the source side proxy and assign it to the target side, in source
order (`val`, `sz`, `space`, `color`, `shadow`). -/
def copyFields (e : CT_P) (tgt : Side) (src : CT_P) (srcSide : Side) : Option CT_P := do
  let v ← BorderSide.val_read src srcSide
  let e ← BorderSide.set_val e tgt v
  let z ← BorderSide.sz_read src srcSide
  let e ← BorderSide.set_sz e tgt z
  let w ← BorderSide.space_read src srcSide
  let e ← BorderSide.set_space e tgt w
  let c ← BorderSide.color_read src srcSide
  let e ← BorderSide.set_color e tgt c
  let sh ← BorderSide.shadow_read src srcSide
  BorderSide.set_shadow e tgt sh

/-- `ParagraphBorder.top` setter: ensure the cache slot, then copy all five
fields from the source side proxy. -/
def set_top (pb : ParagraphBorder) (src : CT_P) (srcSide : Side) : Option ParagraphBorder :=
  let g := pb.get .top
  let pb2 := if g.1 then g.2 else g.2.setCache .top
  (copyFields pb2.elm .top src srcSide).map (fun e => { pb2 with elm := e })

/-- `ParagraphBorder.bottom` setter: same shape as the `top` setter. -/
def set_bottom (pb : ParagraphBorder) (src : CT_P) (srcSide : Side) : Option ParagraphBorder :=
  let g := pb.get .bottom
  let pb2 := if g.1 then g.2 else g.2.setCache .bottom
  (copyFields pb2.elm .bottom src srcSide).map (fun e => { pb2 with elm := e })

/-- `ParagraphBorder.left` setter.  In the source the five copy statements
sit inside the `if self.left is None:` block, so when the target side
already resolves to a proxy nothing at all is copied. -/
def set_left (pb : ParagraphBorder) (src : CT_P) (srcSide : Side) : Option ParagraphBorder :=
  let g := pb.get .left
  if g.1 then some g.2
  else
    let pb2 := g.2.setCache .left
    (copyFields pb2.elm .left src srcSide).map (fun e => { pb2 with elm := e })

/-- `ParagraphBorder.right` setter: same shape as the `left` setter. -/
def set_right (pb : ParagraphBorder) (src : CT_P) (srcSide : Side) : Option ParagraphBorder :=
  let g := pb.get .right
  if g.1 then some g.2
  else
    let pb2 := g.2.setCache .right
    (copyFields pb2.elm .right src srcSide).map (fun e => { pb2 with elm := e })

end ParagraphBorder

/-! ## Helper lemmas: decimal strings -/

theorem digitVal_digitChar {d : Nat} (hd : d < 10) :
    digitVal (digitChar d) = some d := by
  interval_cases d <;> decide

theorem digitChar_toNat {d : Nat} (hd : d < 10) :
    (digitChar d).toNat = 48 + d := by
  interval_cases d <;> decide

theorem natDigitsRevAux_lt {fuel n : Nat} :
    ∀ d ∈ natDigitsRevAux fuel n, d < 10 := by
  induction fuel generalizing n with
  | zero => simp [natDigitsRevAux]
  | succ fuel ih =>
    cases n with
    | zero => simp [natDigitsRevAux]
    | succ m =>
      intro d hd
      simp only [natDigitsRevAux, List.mem_cons] at hd
      rcases hd with h | h
      · subst h
        exact Nat.mod_lt _ (by omega)
      · exact ih _ h

theorem parseDigitsAux_append (cs ds : List Char) (acc : Nat) :
    parseDigitsAux (cs ++ ds) acc =
      (parseDigitsAux cs acc).bind (fun r => parseDigitsAux ds r) := by
  induction cs generalizing acc with
  | nil => rfl
  | cons c cs ih =>
    simp only [List.cons_append, parseDigitsAux]
    cases digitVal c with
    | none => rfl
    | some d => exact ih _

theorem parseDigitsAux_digits {fuel : Nat} :
    ∀ {n acc : Nat}, n ≤ fuel →
      parseDigitsAux (((natDigitsRevAux fuel n).map digitChar).reverse) acc =
        some (acc * 10 ^ (natDigitsRevAux fuel n).length + n) := by
  induction fuel with
  | zero =>
    intro n acc h
    have hn : n = 0 := Nat.le_zero.mp h
    subst hn
    simp [natDigitsRevAux, parseDigitsAux]
  | succ fuel ih =>
    intro n acc h
    cases n with
    | zero => simp [natDigitsRevAux, parseDigitsAux]
    | succ m =>
      have hdiv : (m + 1) / 10 ≤ fuel := by
        have h1 : (m + 1) / 10 < m + 1 := Nat.div_lt_self (Nat.succ_pos m) (by omega)
        omega
      simp only [natDigitsRevAux, List.map_cons, List.reverse_cons]
      rw [parseDigitsAux_append, ih hdiv]
      simp only [Option.some_bind, parseDigitsAux,
        digitVal_digitChar (Nat.mod_lt (m + 1) (by omega))]
      congr 1
      rw [List.length_cons]
      generalize ha : (m + 1) / 10 = a
      generalize hb : (m + 1) % 10 = b
      have hm : 10 * a + b = m + 1 := by omega
      rw [← hm]
      ring

theorem pyStrNat_zero : pyStrNat 0 = "0" := rfl

theorem pyStrNat_data {n : Nat} (h : n ≠ 0) :
    (pyStrNat n).data = ((natDigitsRev n).map digitChar).reverse := by
  simp [pyStrNat, h]

theorem mem_pyStrNat {n : Nat} {c : Char} (hc : c ∈ (pyStrNat n).data) :
    ∃ d, d < 10 ∧ c = digitChar d := by
  by_cases h : n = 0
  · subst h
    simp only [pyStrNat_zero] at hc
    have : c = '0' := by simpa using hc
    exact ⟨0, by omega, by rw [this]; rfl⟩
  · rw [pyStrNat_data h] at hc
    rw [List.mem_reverse, List.mem_map] at hc
    obtain ⟨d, hd, hdc⟩ := hc
    exact ⟨d, natDigitsRevAux_lt d hd, hdc.symm⟩

theorem pyIn_pyStrNat {n : Nat} {c : Char} (hc : 58 ≤ c.toNat) :
    pyIn c (pyStrNat n) = false := by
  have hmem : c ∉ (pyStrNat n).data := by
    intro hmm
    obtain ⟨d, hd, rfl⟩ := mem_pyStrNat hmm
    rw [digitChar_toNat hd] at hc
    omega
  simp [pyIn, List.contains, hmem]

theorem pyParseInt_pyStrNat (n : Nat) :
    pyParseInt (pyStrNat n) = some (n : Int) := by
  by_cases h : n = 0
  · subst h; decide
  · have hdata := pyStrNat_data h
    obtain ⟨m, rfl⟩ : ∃ m, n = m + 1 := ⟨n - 1, by omega⟩
    have hcons : natDigitsRev (m + 1) =
        ((m + 1) % 10) :: natDigitsRevAux m ((m + 1) / 10) := rfl
    obtain ⟨c, r, hcr⟩ : ∃ c r, (pyStrNat (m + 1)).data = c :: r := by
      rw [hdata, hcons]
      simp only [List.map_cons, List.reverse_cons]
      rcases hl : (List.map digitChar (natDigitsRevAux m ((m + 1) / 10))).reverse with
        _ | ⟨x, xs⟩
      · exact ⟨_, _, rfl⟩
      · exact ⟨_, _, rfl⟩
    have hcmem : c ∈ (pyStrNat (m + 1)).data := by rw [hcr]; exact List.mem_cons_self _ _
    obtain ⟨d, hd, rfl⟩ := mem_pyStrNat hcmem
    have hne1 : digitChar d ≠ '-' := by
      intro he
      have h1 := digitChar_toNat hd
      rw [he] at h1
      have h2 : ('-').toNat = 45 := by decide
      omega
    have hne2 : digitChar d ≠ '+' := by
      intro he
      have h1 := digitChar_toNat hd
      rw [he] at h1
      have h2 : ('+').toNat = 43 := by decide
      omega
    unfold pyParseInt
    rw [hcr]
    simp only [if_neg hne1, if_neg hne2, ← hcr]
    rw [hdata]
    have hlist : parseDigits ((natDigitsRev (m + 1)).map digitChar).reverse =
        some (m + 1) := by
      have hnil : ((natDigitsRev (m + 1)).map digitChar).reverse ≠ [] := by
        rw [hcons]
        simp
      rcases hx : ((natDigitsRev (m + 1)).map digitChar).reverse with _ | ⟨x, xs⟩
      · exact absurd hx hnil
      · rw [← hx]
        unfold parseDigits
        rw [hx, ← hx]
        have := @parseDigitsAux_digits (m + 1) (m + 1) 0 (le_refl _)
        rw [natDigitsRev] at *
        rw [this]
        simp
    rw [hlist]
    rfl

theorem pyStrInt_nonneg {i : Int} (h : 0 ≤ i) : pyStrInt i = pyStrNat i.toNat := by
  rw [pyStrInt, if_neg (not_lt.mpr h)]

theorem pyParseInt_pyStrInt {i : Int} (h : 0 ≤ i) : pyParseInt (pyStrInt i) = some i := by
  rw [pyStrInt_nonneg h, pyParseInt_pyStrNat, Int.toNat_of_nonneg h]

theorem pyIn_pyStrInt {i : Int} {c : Char} (h : 0 ≤ i) (hc : 58 ≤ c.toNat) :
    pyIn c (pyStrInt i) = false := by
  rw [pyStrInt_nonneg h]
  exact pyIn_pyStrNat hc

/-! ## Helper lemmas: length-measure round trips -/

theorem validate_unsigned_long {v : Int} (h : XsdUnsignedLong.validate v = true) :
    0 ≤ v ∧ v ≤ 18446744073709551615 := by
  simp only [XsdUnsignedLong.validate, validate_int_in_range, Bool.and_eq_true,
    decide_eq_true_eq] at h
  exact h

theorem pts_roundtrip {v : Int} (hval : ST_PtsMeasure.validate v = true)
    (hdvd : (12700 : Int) ∣ v) :
    ∃ s, ST_PtsMeasure.to_xml v = some s ∧ ST_PtsMeasure.from_xml s = some v := by
  obtain ⟨h0, _⟩ := validate_unsigned_long hval
  obtain ⟨k, rfl⟩ := hdvd
  have hk0 : 0 ≤ k := by omega
  have htd : Int.tdiv (12700 * k) 12700 = k := by
    rw [mul_comm]
    exact Int.mul_tdiv_cancel _ (by norm_num)
  refine ⟨pyStrInt k, ?_, ?_⟩
  · simp only [ST_PtsMeasure.to_xml, hval, if_true, ST_PtsMeasure.convert_to_xml, htd]
  · simp only [ST_PtsMeasure.from_xml, ST_PtsMeasure.convert_from_xml,
      pyIn_pyStrInt hk0 (by decide : 58 ≤ Char.toNat 'm'),
      pyIn_pyStrInt hk0 (by decide : 58 ≤ Char.toNat 'n'),
      pyIn_pyStrInt hk0 (by decide : 58 ≤ Char.toNat 'p'),
      Bool.or_self, Bool.or_false, Bool.false_eq_true, if_false,
      pyParseInt_pyStrInt hk0, Option.map_some', Option.some.injEq, Pt]
    ring

theorem hps_roundtrip {v : Int} (hval : ST_HpsMeasure.validate v = true)
    (hdvd : (6350 : Int) ∣ v) :
    ∃ s, ST_HpsMeasure.to_xml v = some s ∧ ST_HpsMeasure.from_xml s = some v := by
  obtain ⟨h0, _⟩ := validate_unsigned_long hval
  obtain ⟨k, rfl⟩ := hdvd
  have hk0 : 0 ≤ k := by omega
  have htd : Int.tdiv (2 * (6350 * k)) 12700 = k := by
    have h2 : 2 * (6350 * k) = k * 12700 := by ring
    rw [h2]
    exact Int.mul_tdiv_cancel _ (by norm_num)
  refine ⟨pyStrInt k, ?_, ?_⟩
  · simp only [ST_HpsMeasure.to_xml, hval, if_true, ST_HpsMeasure.convert_to_xml, htd]
  · simp only [ST_HpsMeasure.from_xml, ST_HpsMeasure.convert_from_xml,
      pyIn_pyStrInt hk0 (by decide : 58 ≤ Char.toNat 'm'),
      pyIn_pyStrInt hk0 (by decide : 58 ≤ Char.toNat 'n'),
      pyIn_pyStrInt hk0 (by decide : 58 ≤ Char.toNat 'p'),
      Bool.or_self, Bool.or_false, Bool.false_eq_true, if_false,
      pyParseInt_pyStrInt hk0, Option.map_some', Option.some.injEq, PtHalf]
    ring

theorem eighths_roundtrip {v : Int} (hval : ST_EighthsOfPointMeasure.validate v = true)
    (hdvd : (3175 : Int) ∣ v) :
    ∃ s, ST_EighthsOfPointMeasure.to_xml v = some s ∧
      ST_EighthsOfPointMeasure.from_xml s = some v := by
  obtain ⟨h0, _⟩ := validate_unsigned_long hval
  obtain ⟨k, rfl⟩ := hdvd
  have hk0 : 0 ≤ k := by omega
  have hk20 : 0 ≤ 2 * k := by omega
  have htd : Int.tdiv (8 * (3175 * k)) 12700 = 2 * k := by
    have h2 : 8 * (3175 * k) = 2 * k * 12700 := by ring
    rw [h2]
    exact Int.mul_tdiv_cancel _ (by norm_num)
  have htd2 : Int.tdiv (2 * k * 12700) 8 = 3175 * k := by
    have h2 : 2 * k * 12700 = 3175 * k * 8 := by ring
    rw [h2]
    exact Int.mul_tdiv_cancel _ (by norm_num)
  refine ⟨pyStrInt (2 * k), ?_, ?_⟩
  · simp only [ST_EighthsOfPointMeasure.to_xml, hval, if_true,
      ST_EighthsOfPointMeasure.convert_to_xml, htd]
  · simp only [ST_EighthsOfPointMeasure.from_xml, ST_EighthsOfPointMeasure.convert_from_xml,
      pyIn_pyStrInt hk20 (by decide : 58 ≤ Char.toNat 'i'),
      pyIn_pyStrInt hk20 (by decide : 58 ≤ Char.toNat 'm'),
      pyIn_pyStrInt hk20 (by decide : 58 ≤ Char.toNat 'p'),
      Bool.or_self, Bool.or_false, Bool.false_eq_true, if_false,
      pyParseInt_pyStrInt hk20, Option.map_some', Option.some.injEq, EighthsOfPoint, htd2]

/-! ## Helper lemmas: rounding to nearest -/

theorem pyRoundFrac_abs_le {a b : Int} (hb : 0 < b) :
    |(pyRoundFrac a b : ℚ) - (a : ℚ) / (b : ℚ)| ≤ 1 / 2 := by
  have hbq : (0 : ℚ) < (b : ℚ) := by exact_mod_cast hb
  have hfd : Int.fdiv a b = a / b := Int.fdiv_eq_ediv a hb.le
  have h1 : b * (a / b) + a % b = a := Int.ediv_add_emod a b
  have hrw : a - Int.fdiv a b * b = a % b := by
    rw [hfd]
    linarith [mul_comm (a / b) b]
  have hr0 : (0 : Int) ≤ a % b := Int.emod_nonneg a (ne_of_gt hb)
  have hrb : a % b < b := Int.emod_lt_of_pos a hb
  have hr0q : (0 : ℚ) ≤ ((a % b : Int) : ℚ) := by exact_mod_cast hr0
  have hrbq : ((a % b : Int) : ℚ) < (b : ℚ) := by exact_mod_cast hrb
  have hkey : (a : ℚ) / b = ((Int.fdiv a b : Int) : ℚ) + ((a % b : Int) : ℚ) / b := by
    rw [hfd]
    field_simp
    have h2 : ((a : ℚ)) = (b : ℚ) * ((a / b : Int) : ℚ) + ((a % b : Int) : ℚ) := by
      exact_mod_cast h1.symm
    linarith [h2]
  simp only [pyRoundFrac, hrw]
  split_ifs with h2 h3 h4
  · have h2q : 2 * ((a % b : Int) : ℚ) < (b : ℚ) := by exact_mod_cast h2
    rw [hkey]
    have he : ((Int.fdiv a b : Int) : ℚ) -
        (((Int.fdiv a b : Int) : ℚ) + ((a % b : Int) : ℚ) / b) =
        -(((a % b : Int) : ℚ) / b) := by ring
    rw [he, abs_neg, abs_of_nonneg (div_nonneg hr0q hbq.le), div_le_iff hbq]
    linarith
  · have h3q : (b : ℚ) < 2 * ((a % b : Int) : ℚ) := by exact_mod_cast h3
    rw [hkey]
    have he : ((Int.fdiv a b + 1 : Int) : ℚ) -
        (((Int.fdiv a b : Int) : ℚ) + ((a % b : Int) : ℚ) / b) =
        1 - ((a % b : Int) : ℚ) / b := by push_cast; ring
    have hd : (1 : ℚ) / 2 ≤ ((a % b : Int) : ℚ) / b := by
      rw [div_le_div_iff (by norm_num) hbq]
      linarith
    rw [he, abs_of_nonneg]
    · linarith
    · have : ((a % b : Int) : ℚ) / b ≤ 1 := by
        rw [div_le_one hbq]
        linarith
      linarith
  · have heq : 2 * (a % b) = b := by omega
    have heqq : ((a % b : Int) : ℚ) / b = 1 / 2 := by
      rw [div_eq_div_iff hbq.ne' (by norm_num : (2:ℚ) ≠ 0)]
      have : 2 * ((a % b : Int) : ℚ) = (b : ℚ) := by exact_mod_cast heq
      linarith
    rw [hkey]
    have he : ((Int.fdiv a b : Int) : ℚ) -
        (((Int.fdiv a b : Int) : ℚ) + ((a % b : Int) : ℚ) / b) =
        -(((a % b : Int) : ℚ) / b) := by ring
    rw [he, abs_neg, heqq, abs_of_nonneg (by norm_num)]
  · have heq : 2 * (a % b) = b := by omega
    have heqq : ((a % b : Int) : ℚ) / b = 1 / 2 := by
      rw [div_eq_div_iff hbq.ne' (by norm_num : (2:ℚ) ≠ 0)]
      have : 2 * ((a % b : Int) : ℚ) = (b : ℚ) := by exact_mod_cast heq
      linarith
    rw [hkey]
    have he : ((Int.fdiv a b + 1 : Int) : ℚ) -
        (((Int.fdiv a b : Int) : ℚ) + ((a % b : Int) : ℚ) / b) =
        1 - ((a % b : Int) : ℚ) / b := by push_cast; ring
    rw [he, heqq, abs_of_nonneg (by norm_num)]
    norm_num

theorem nearest_of_abs_le_half {x : ℚ} {r : Int} (h : |(r : ℚ) - x| ≤ 1 / 2)
    (z : Int) : |(r : ℚ) - x| ≤ |(z : ℚ) - x| := by
  by_cases hz : z = r
  · subst hz
    exact le_refl _
  · have h1 : (1 : ℚ) ≤ |(z : ℚ) - (r : ℚ)| := by
      have hi : (1 : Int) ≤ |z - r| := Int.one_le_abs (sub_ne_zero.mpr hz)
      have : ((|z - r| : Int) : ℚ) = |(z : ℚ) - (r : ℚ)| := by push_cast; ring_nf
      rw [← this]
      exact_mod_cast hi
    have ht : |(z : ℚ) - (r : ℚ)| ≤ |(z : ℚ) - x| + |x - (r : ℚ)| := abs_sub_le _ _ _
    have ht2 : |x - (r : ℚ)| = |(r : ℚ) - x| := abs_sub_comm _ _
    linarith

/-! ## Helper lemmas: hex colors -/

theorem hexDigitVal_hexDigitChar {d : Nat} (hd : d < 16) :
    hexDigitVal (hexDigitChar d) = some d := by
  interval_cases d <;> decide

theorem hex2_val {n : Nat} (hn : n < 256) :
    hexDigitVal (hexDigitChar (n / 16 % 16)) = some (n / 16) ∧
      hexDigitVal (hexDigitChar (n % 16)) = some (n % 16) := by
  have h1 : n / 16 < 16 := Nat.div_lt_of_lt_mul (by omega)
  constructor
  · rw [Nat.mod_eq_of_lt h1]
    exact hexDigitVal_hexDigitChar h1
  · exact hexDigitVal_hexDigitChar (Nat.mod_lt _ (by omega))

theorem hex_roundtrip {r g b : Nat} (hr : r < 256) (hg : g < 256) (hb : b < 256) :
    ST_HexColor.from_xml ⟨hex2 r ++ hex2 g ++ hex2 b⟩ = some (.rgb r g b) := by
  have hne : (⟨hex2 r ++ hex2 g ++ hex2 b⟩ : String) ≠ "auto" := by
    intro he
    have hd := congrArg (fun s => s.data.length) he
    simp [hex2] at hd
  rw [ST_HexColor.from_xml, ST_HexColor.convert_from_xml, if_neg hne]
  show RGBColor.from_string ⟨hex2 r ++ hex2 g ++ hex2 b⟩ = _
  rw [RGBColor.from_string]
  simp only [hex2, List.cons_append, List.nil_append]
  rw [(hex2_val hr).1, (hex2_val hr).2, (hex2_val hg).1, (hex2_val hg).2,
    (hex2_val hb).1, (hex2_val hb).2]
  simp only [Option.some.injEq, HexColorValue.rgb.injEq]
  refine ⟨?_, ?_, ?_⟩ <;> omega

/-! ## Helper lemmas: tree navigation -/

theorem side_setSide_same (pb : CT_PBdr) (s : Side) (v : Option CT_BorderSide) :
    (pb.setSide s v).side s = v := by
  cases s <;> rfl

theorem side_setSide_ne (pb : CT_PBdr) {s s' : Side} (h : s' ≠ s)
    (v : Option CT_BorderSide) : (pb.setSide s v).side s' = pb.side s' := by
  cases s <;> cases s' <;> first | rfl | exact absurd rfl h

theorem empty_pbdr_side (s : Side) :
    (⟨none, none, none, none⟩ : CT_PBdr).side s = none := by
  cases s <;> rfl

theorem sideElm_updateSide_same (p : CT_P) (s : Side)
    (f : CT_BorderSide → CT_BorderSide) :
    (p.updateSide s f).sideElm s = some (f ((p.sideElm s).getD emptyBorderSide)) := by
  obtain ⟨op⟩ := p
  rcases op with _ | ⟨opb⟩
  · simp [CT_P.updateSide, CT_P.sideElm, side_setSide_same, empty_pbdr_side]
  · rcases opb with _ | ⟨pb⟩
    · simp [CT_P.updateSide, CT_P.sideElm, side_setSide_same, empty_pbdr_side]
    · simp [CT_P.updateSide, CT_P.sideElm, side_setSide_same]

theorem sideElm_updateSide_ne (p : CT_P) {s s' : Side} (h : s' ≠ s)
    (f : CT_BorderSide → CT_BorderSide) :
    (p.updateSide s f).sideElm s' = p.sideElm s' := by
  obtain ⟨op⟩ := p
  rcases op with _ | ⟨opb⟩
  · simp [CT_P.updateSide, CT_P.sideElm, side_setSide_ne _ h, empty_pbdr_side]
  · rcases opb with _ | ⟨pb⟩
    · simp [CT_P.updateSide, CT_P.sideElm, side_setSide_ne _ h, empty_pbdr_side]
    · simp [CT_P.updateSide, CT_P.sideElm, side_setSide_ne _ h]

theorem xsdBoolean_roundtrip (bb : Bool) :
    XsdBoolean.from_xml (XsdBoolean.convert_to_xml bb) = some bb := by
  cases bb <;> decide

/-- What one run of the five copy assignments in a side setter does, given a
source side whose fields read back successfully with validate-passing,
render-stable values: the target side ends up reading equal values (shadow
equal, in particular still absent if absent at the source), and every other
side of the target tree is untouched. -/
theorem copyFields_spec {src : CT_P} {ss : Side} {v : String} {z w : Int}
    {r g b : Nat} {sh : Option Bool}
    (hv : BorderSide.val_read src ss = some (some v))
    (hvm : ST_BorderValue.validate v = true)
    (hz : BorderSide.sz_read src ss = some (some z))
    (hzval : ST_EighthsOfPointMeasure.validate z = true) (hzd : (3175 : Int) ∣ z)
    (hw : BorderSide.space_read src ss = some (some w))
    (hwval : ST_PtsMeasure.validate w = true) (hwd : (12700 : Int) ∣ w)
    (hc : BorderSide.color_read src ss = some (some (.rgb r g b)))
    (hr : r < 256) (hg : g < 256) (hb : b < 256)
    (hsh : BorderSide.shadow_read src ss = some sh)
    (e : CT_P) (tgt : Side) :
    ∃ e', ParagraphBorder.copyFields e tgt src ss = some e' ∧
      BorderSide.val_read e' tgt = some (some v) ∧
      BorderSide.sz_read e' tgt = some (some z) ∧
      BorderSide.space_read e' tgt = some (some w) ∧
      BorderSide.color_read e' tgt = some (some (.rgb r g b)) ∧
      BorderSide.shadow_read e' tgt = some sh ∧
      ∀ s', s' ≠ tgt → e'.sideElm s' = e.sideElm s' := by
  obtain ⟨zs, hz1, hz2⟩ := eighths_roundtrip hzval hzd
  obtain ⟨ws, hw1, hw2⟩ := pts_roundtrip hwval hwd
  have hvx : ST_BorderValue.to_xml v = some v := by
    simp [ST_BorderValue.to_xml, ST_BorderValue.convert_to_xml, hvm]
  have hcx : ST_HexColor.to_xml (HexColorValue.rgb r g b) =
      some ⟨hex2 r ++ hex2 g ++ hex2 b⟩ := rfl
  have hhex : ST_HexColor.from_xml ⟨hex2 r ++ hex2 g ++ hex2 b⟩ =
      some (HexColorValue.rgb r g b) := hex_roundtrip hr hg hb
  rcases sh with _ | bb
  · simp only [ParagraphBorder.copyFields, hv, hz, hw, hc, hsh,
      Option.bind_eq_bind, Option.some_bind, BorderSide.set_val,
      BorderSide.set_sz, BorderSide.set_space, BorderSide.set_color,
      BorderSide.set_shadow, hvx, hz1, hw1, hcx]
    refine ⟨_, rfl, ?_, ?_, ?_, ?_, ?_, ?_⟩
    · simp only [BorderSide.val_read, sideElm_updateSide_same, Option.getD_some,
        ST_BorderValue.from_xml, ST_BorderValue.convert_from_xml]
    · simp only [BorderSide.sz_read, sideElm_updateSide_same, Option.getD_some, hz2,
        Option.map_some']
    · simp only [BorderSide.space_read, sideElm_updateSide_same, Option.getD_some, hw2,
        Option.map_some']
    · simp only [BorderSide.color_read, sideElm_updateSide_same, Option.getD_some, hhex,
        Option.map_some']
    · simp only [BorderSide.shadow_read, sideElm_updateSide_same, Option.getD_some]
    · intro s' hs'
      simp only [sideElm_updateSide_ne _ hs']
  · simp only [ParagraphBorder.copyFields, hv, hz, hw, hc, hsh,
      Option.bind_eq_bind, Option.some_bind, BorderSide.set_val,
      BorderSide.set_sz, BorderSide.set_space, BorderSide.set_color,
      BorderSide.set_shadow, hvx, hz1, hw1, hcx]
    refine ⟨_, rfl, ?_, ?_, ?_, ?_, ?_, ?_⟩
    · simp only [BorderSide.val_read, sideElm_updateSide_same, Option.getD_some,
        ST_BorderValue.from_xml, ST_BorderValue.convert_from_xml]
    · simp only [BorderSide.sz_read, sideElm_updateSide_same, Option.getD_some, hz2,
        Option.map_some']
    · simp only [BorderSide.space_read, sideElm_updateSide_same, Option.getD_some, hw2,
        Option.map_some']
    · simp only [BorderSide.color_read, sideElm_updateSide_same, Option.getD_some, hhex,
        Option.map_some']
    · simp only [BorderSide.shadow_read, sideElm_updateSide_same, Option.getD_some,
        xsdBoolean_roundtrip bb, Option.map_some']
    · intro s' hs'
      simp only [sideElm_updateSide_ne _ hs']

theorem from_string_validates {s : String} {v : HexColorValue}
    (h : RGBColor.from_string s = some v) : ST_HexColor.validate v = true := by
  rw [RGBColor.from_string] at h
  split at h
  · split at h
    · rw [Option.some.injEq] at h
      subst h
      rfl
    · exact absurd h (by simp)
  · exact absurd h (by simp)

/-! ## Claim theorems -/

/-- C1, counterexample: the descriptor `ST_HexColor` accepts the raw string
`'auto'` in `from_xml`, returning the string sentinel, but its `validate`
rejects that very value (it requires an `RGBColor`); likewise a string
enumeration accepts any string in `from_xml`, including non-members that
`validate` rejects.  So parse output does not always satisfy validate. -/
theorem C1_hexcolor_auto_counterexample :
    ST_HexColor.from_xml "auto" = some (HexColorValue.str "auto") ∧
    ST_HexColor.validate (HexColorValue.str "auto") = false ∧
    ST_Merge.from_xml "bogus" = "bogus" ∧
    ST_Merge.validate "bogus" = false := by
  constructor
  · rfl
  · exact ⟨rfl, rfl, rfl⟩

/-- C1, amended: the parse-implies-validate invariant holds for the boolean
descriptors (`XsdBoolean`, `ST_OnOff`) on every accepted input, and for
`ST_HexColor` on every accepted input other than `'auto'`; it fails at
`ST_HexColor` on `'auto'` and at the string-enumeration descriptors, whose
`from_xml` returns any input unchanged, so the parsed value validates
exactly when the raw input was already a member of the enumeration. -/
theorem C1_parse_validate_amended :
    (∀ (s : String) (bb : Bool), XsdBoolean.from_xml s = some bb →
      XsdBoolean.validate (some bb) = true) ∧
    (∀ (s : String) (bb : Bool), ST_OnOff.from_xml s = some bb →
      ST_OnOff.validate (some bb) = true) ∧
    (∀ (s : String) (v : HexColorValue), s ≠ "auto" →
      ST_HexColor.from_xml s = some v → ST_HexColor.validate v = true) ∧
    (∀ s : String,
      ST_Merge.validate (ST_Merge.from_xml s) = true ↔ s ∈ ST_Merge.members) := by
  refine ⟨fun s bb _ => rfl, fun s bb _ => rfl, ?_, ?_⟩
  · intro s v hs h
    rw [ST_HexColor.from_xml, ST_HexColor.convert_from_xml, if_neg hs] at h
    exact from_string_validates h
  · intro s
    show ST_Merge.members.contains s = true ↔ _
    simp [ST_Merge.members, List.contains_cons]

theorem C1_witness :
    XsdBoolean.validate (some true) = true ∧
    ST_HexColor.validate (HexColorValue.rgb 0 255 60) = true := by
  have h := C1_parse_validate_amended
  exact ⟨h.1 "1" true (by decide),
    h.2.2.1 "00FF3C" (HexColorValue.rgb 0 255 60) (by decide) (by decide)⟩

/-- C2, counterexample: 1 EMU passes `ST_PtsMeasure.validate` but renders
as `"0"`, which parses back to 0 EMU, not 1; so the round trip does not
hold for every validate-passing value. -/
theorem C2_roundtrip_counterexample :
    ST_PtsMeasure.validate 1 = true ∧
    ST_PtsMeasure.to_xml 1 = some "0" ∧
    ST_PtsMeasure.from_xml "0" = some 0 ∧
    ST_PtsMeasure.from_xml "0" ≠ some 1 := by
  refine ⟨by decide, by decide, by decide, by decide⟩

/-- C2, amended: for the three length descriptors, `from_xml (to_xml v)`
recovers `v` for every validate-passing EMU value that is a whole multiple
of the descriptor's external unit granularity — 12700 EMU (one point) for
`ST_PtsMeasure`, 6350 EMU (one half-point) for `ST_HpsMeasure`, 3175 EMU
(two eighths of a point, the smallest whole-EMU multiple of the unit) for
`ST_EighthsOfPointMeasure`; for other values the truncating render loses
information. -/
theorem C2_roundtrip_unit_multiples :
    (∀ v : Int, ST_PtsMeasure.validate v = true → (12700 : Int) ∣ v →
      ∃ s, ST_PtsMeasure.to_xml v = some s ∧ ST_PtsMeasure.from_xml s = some v) ∧
    (∀ v : Int, ST_HpsMeasure.validate v = true → (6350 : Int) ∣ v →
      ∃ s, ST_HpsMeasure.to_xml v = some s ∧ ST_HpsMeasure.from_xml s = some v) ∧
    (∀ v : Int, ST_EighthsOfPointMeasure.validate v = true → (3175 : Int) ∣ v →
      ∃ s, ST_EighthsOfPointMeasure.to_xml v = some s ∧
        ST_EighthsOfPointMeasure.from_xml s = some v) :=
  ⟨fun _ hval hdvd => pts_roundtrip hval hdvd,
   fun _ hval hdvd => hps_roundtrip hval hdvd,
   fun _ hval hdvd => eighths_roundtrip hval hdvd⟩

theorem C2_witness :
    (∃ s, ST_PtsMeasure.to_xml 25400 = some s ∧ ST_PtsMeasure.from_xml s = some 25400) ∧
    (∃ s, ST_HpsMeasure.to_xml 6350 = some s ∧ ST_HpsMeasure.from_xml s = some 6350) ∧
    (∃ s, ST_EighthsOfPointMeasure.to_xml 3175 = some s ∧
      ST_EighthsOfPointMeasure.from_xml s = some 3175) :=
  ⟨C2_roundtrip_unit_multiples.1 25400 (by decide) (by decide),
   C2_roundtrip_unit_multiples.2.1 6350 (by decide) (by decide),
   C2_roundtrip_unit_multiples.2.2 3175 (by decide) (by decide)⟩

/-- C3, counterexample: rendering 914400 EMU through the half-point
descriptor does not yield `"1440"`: 914400 EMU is one inch, which is 72
points, i.e. 144 half-points (the spec's `720 points = 1440 half-points`
arithmetic contradicts its own 914400-EMU-per-inch, 12700-EMU-per-point
glossary). -/
theorem C3_half_point_counterexample :
    ¬ ST_HpsMeasure.convert_to_xml 914400 = "1440" := by
  decide

/-- C3, amended: rendering 914400 EMU through `ST_HpsMeasure.convert_to_xml`
yields the string `"144"` (914400 EMU = 72 points = 144 half-points). -/
theorem C3_half_point_render :
    ST_HpsMeasure.convert_to_xml 914400 = "144" := by
  decide

/-- C5: `ST_UniversalMeasure.convert_from_xml` maps `"1in"` and `"2.54cm"`
to exactly 914400 EMU, and in general, whenever the last two characters of
the input form a recognized unit code with multiplier `m` and the leading
part parses as the decimal quantity `a / 10 ^ d`, the result is an integer
no farther from `quantity × m` than any other integer (rounding to the
nearest EMU). -/
theorem C5_universal_measure :
    ST_UniversalMeasure.convert_from_xml "1in" = some 914400 ∧
    ST_UniversalMeasure.convert_from_xml "2.54cm" = some 914400 ∧
    ∀ (s : String) (a : Int) (d : Nat) (m : Int),
      pyFloat ⟨s.data.take (s.data.length - 2)⟩ = some (a, d) →
      ST_UniversalMeasure.unitMultiplier (s.data.drop (s.data.length - 2)) = some m →
      ∃ r : Int, ST_UniversalMeasure.convert_from_xml s = some r ∧
        ∀ z : Int, |(r : ℚ) - (a : ℚ) / 10 ^ d * m| ≤ |(z : ℚ) - (a : ℚ) / 10 ^ d * m| := by
  refine ⟨by decide, by decide, ?_⟩
  intro s a d m hq hm
  rw [ST_UniversalMeasure.convert_from_xml]
  rw [hq, hm]
  refine ⟨_, rfl, ?_⟩
  have hb : (0 : Int) < 10 ^ d := pow_pos (by norm_num) d
  have hx : ((a * m : Int) : ℚ) / ((10 ^ d : Int) : ℚ) = (a : ℚ) / 10 ^ d * m := by
    push_cast
    ring
  have habs := @pyRoundFrac_abs_le (a * m) (10 ^ d) hb
  rw [hx] at habs
  intro z
  exact nearest_of_abs_le_half habs z

theorem C5_witness :
    ∃ r : Int, ST_UniversalMeasure.convert_from_xml "3mm" = some r ∧
      |(r : ℚ) - (3 : ℚ) / 10 ^ (0 : Nat) * 36000| ≤
        |((107999 : Int) : ℚ) - (3 : ℚ) / 10 ^ (0 : Nat) * 36000| := by
  obtain ⟨r, hr, hnear⟩ :=
    C5_universal_measure.2.2 "3mm" 3 0 36000 (by decide) (by decide)
  exact ⟨r, hr, hnear 107999⟩

/-- C6: `XsdBoolean.convert_from_xml` succeeds exactly on `"1"`, `"0"`,
`"true"`, `"false"` and returns `true` exactly for `"1"` and `"true"`;
`ST_OnOff.convert_from_xml` additionally accepts `"on"`/`"off"`, returning
`true` exactly for `"1"`, `"true"`, `"on"`; and both `to_xml` methods only
ever emit `"1"` or `"0"` on validate-passing values. -/
theorem C6_boolean_lexical :
    (∀ s : String, XsdBoolean.convert_from_xml s ≠ none ↔
      (s = "1" ∨ s = "0" ∨ s = "true" ∨ s = "false")) ∧
    (∀ s : String, XsdBoolean.convert_from_xml s = some true ↔
      (s = "1" ∨ s = "true")) ∧
    (∀ s : String, ST_OnOff.convert_from_xml s ≠ none ↔
      (s = "1" ∨ s = "0" ∨ s = "true" ∨ s = "false" ∨ s = "on" ∨ s = "off")) ∧
    (∀ s : String, ST_OnOff.convert_from_xml s = some true ↔
      (s = "1" ∨ s = "true" ∨ s = "on")) ∧
    (∀ (v : Option Bool) (out : String), XsdBoolean.to_xml v = some out →
      out = "1" ∨ out = "0") ∧
    (∀ (v : Option Bool) (out : String), ST_OnOff.to_xml v = some out →
      out = "1" ∨ out = "0") := by
  refine ⟨?_, ?_, ?_, ?_, ?_, ?_⟩
  · intro s
    rw [XsdBoolean.convert_from_xml]
    split_ifs with h
    · simpa using h
    · simpa using h
  · intro s
    rw [XsdBoolean.convert_from_xml]
    split_ifs with h
    · simp only [Option.some.injEq, decide_eq_true_eq]
    · constructor
      · intro hc
        exact absurd hc (by simp)
      · intro hc
        exact absurd (by tauto : s = "1" ∨ s = "0" ∨ s = "true" ∨ s = "false") h
  · intro s
    rw [ST_OnOff.convert_from_xml]
    split_ifs with h
    · simpa using h
    · simpa using h
  · intro s
    rw [ST_OnOff.convert_from_xml]
    split_ifs with h
    · simp only [Option.some.injEq, decide_eq_true_eq]
    · constructor
      · intro hc
        exact absurd hc (by simp)
      · intro hc
        exact absurd
          (by tauto : s = "1" ∨ s = "0" ∨ s = "true" ∨ s = "false" ∨ s = "on" ∨ s = "off") h
  · intro v out h
    match v with
    | none => exact absurd h (by simp [XsdBoolean.to_xml, XsdBoolean.validate])
    | some true => exact Or.inl (by simpa [XsdBoolean.to_xml, XsdBoolean.validate,
        XsdBoolean.convert_to_xml] using h.symm)
    | some false => exact Or.inr (by simpa [XsdBoolean.to_xml, XsdBoolean.validate,
        XsdBoolean.convert_to_xml] using h.symm)
  · intro v out h
    match v with
    | none => exact absurd h (by simp [ST_OnOff.to_xml, ST_OnOff.validate,
        XsdBoolean.validate])
    | some true => exact Or.inl (by simpa [ST_OnOff.to_xml, ST_OnOff.validate,
        XsdBoolean.validate, ST_OnOff.convert_to_xml, XsdBoolean.convert_to_xml]
        using h.symm)
    | some false => exact Or.inr (by simpa [ST_OnOff.to_xml, ST_OnOff.validate,
        XsdBoolean.validate, ST_OnOff.convert_to_xml, XsdBoolean.convert_to_xml]
        using h.symm)

theorem C6_witness :
    ("1" = "1" ∨ "1" = "0") ∧ ("0" = "1" ∨ "0" = "0") :=
  ⟨C6_boolean_lexical.2.2.2.2.1 (some true) "1" (by decide),
   C6_boolean_lexical.2.2.2.2.2 (some false) "0" (by decide)⟩

/-- C7: each bounded integer descriptor validates its declared minimum and
maximum and rejects `min - 1` and `max + 1`; `ST_Coordinate.validate`
delegates to `ST_CoordinateUnqualified` and so enforces the same bounds. -/
theorem C7_range_bounds :
    XsdInt.validate (-2147483648) = true ∧ XsdInt.validate 2147483647 = true ∧
    XsdInt.validate (-2147483649) = false ∧ XsdInt.validate 2147483648 = false ∧
    XsdUnsignedInt.validate 0 = true ∧ XsdUnsignedInt.validate 4294967295 = true ∧
    XsdUnsignedInt.validate (-1) = false ∧ XsdUnsignedInt.validate 4294967296 = false ∧
    XsdUnsignedLong.validate 0 = true ∧
    XsdUnsignedLong.validate 18446744073709551615 = true ∧
    XsdUnsignedLong.validate (-1) = false ∧
    XsdUnsignedLong.validate 18446744073709551616 = false ∧
    ST_CoordinateUnqualified.validate (-27273042329600) = true ∧
    ST_CoordinateUnqualified.validate 27273042316900 = true ∧
    ST_CoordinateUnqualified.validate (-27273042329601) = false ∧
    ST_CoordinateUnqualified.validate 27273042316901 = false ∧
    ST_Coordinate.validate (-27273042329600) = true ∧
    ST_Coordinate.validate 27273042316900 = true ∧
    ST_Coordinate.validate (-27273042329601) = false ∧
    ST_Coordinate.validate 27273042316901 = false := by
  decide

/-- C8: for `ST_Merge` (members `continue`, `restart`), `from_xml` of
`"continue"` succeeds and returns `"continue"` (which validates);
`"bogus"` is rejected by the consistently-applied convention of this
codebase: `from_xml` never raises for string enumerations (it is the
identity), and `validate` of the parsed value raises the
membership error; membership is a case-sensitive test against the exact
literal set. -/
theorem C8_enumeration :
    ST_Merge.from_xml "continue" = "continue" ∧
    ST_Merge.validate "continue" = true ∧
    ST_Merge.from_xml "bogus" = "bogus" ∧
    ST_Merge.validate "bogus" = false ∧
    ST_Merge.validate "Continue" = false ∧
    (∀ s : String, ST_Merge.from_xml s = s) ∧
    (∀ s : String, ST_Merge.validate s = true ↔ (s = "continue" ∨ s = "restart")) := by
  refine ⟨rfl, by decide, rfl, by decide, by decide, fun s => rfl, ?_⟩
  intro s
  show ST_Merge.members.contains s = true ↔ _
  simp [ST_Merge.members, List.contains_cons]

theorem setCache_elm (pb : ParagraphBorder) (s : Side) :
    (pb.setCache s).elm = pb.elm := by
  cases s <;> rfl

theorem get_elm (pb : ParagraphBorder) (s : Side) : (pb.get s).2.elm = pb.elm := by
  rw [ParagraphBorder.get]
  by_cases h : pb.cache s
  · rw [if_pos h]
  · rw [if_neg h]
    cases hx : pb.elm.sideElm s
    · rfl
    · exact setCache_elm pb s

theorem sz_read_congr {p q : CT_P} {s : Side} (h : p.sideElm s = q.sideElm s) :
    BorderSide.sz_read p s = BorderSide.sz_read q s := by
  rw [BorderSide.sz_read, BorderSide.sz_read, h]

/-- C4, counterexample: in the `left` (and `right`) setters the five copy
statements sit inside the `if self.left is None:` block, so assigning to a
side that already exists copies nothing: here the target paragraph already
has a left border of size 16 eighths (25400 EMU), the source's left border
has size 24 eighths (38100 EMU), and after the assignment the target tree
is unchanged — its left size still reads 25400 EMU, not the source's
38100. -/
theorem C4_copy_counterexample :
    ParagraphBorder.set_left
        ⟨⟨some ⟨some ⟨none, some ⟨some "single", some "16", some "3",
          some "00FF3C", none⟩, none, none⟩⟩⟩, false, false, false, false⟩
        ⟨some ⟨some ⟨none, some ⟨some "single", some "24", some "3",
          some "00FF3C", none⟩, none, none⟩⟩⟩ .left =
      some ⟨⟨some ⟨some ⟨none, some ⟨some "single", some "16", some "3",
        some "00FF3C", none⟩, none, none⟩⟩⟩, false, true, false, false⟩ ∧
    BorderSide.sz_read
        ⟨some ⟨some ⟨none, some ⟨some "single", some "16", some "3",
          some "00FF3C", none⟩, none, none⟩⟩⟩ .left = some (some 25400) ∧
    BorderSide.sz_read
        ⟨some ⟨some ⟨none, some ⟨some "single", some "24", some "3",
          some "00FF3C", none⟩, none, none⟩⟩⟩ .left = some (some 38100) ∧
    (25400 : Int) ≠ 38100 := by
  refine ⟨by decide, by decide, by decide, by decide⟩

/-- C4, amended: assigning a source side to `top` or `bottom` copies all
five fields whether or not the target side existed (the values are
preserved whenever the source's sz and space are whole multiples of the
render granularity, 3175 resp. 12700 EMU, as all attribute-stored values
with even raw eighths are), and a source side with no shadow produces a
target side with no shadow; assigning to `left` or `right` performs the
copy only when the target side did not already exist, and otherwise leaves
the tree untouched; and a later size write through the source side (any
side other than the target) never changes the target side's size. -/
theorem C4_copy_semantics :
    (∀ (pb : ParagraphBorder) (src : CT_P) (ss : Side) (v : String) (z w : Int)
        (r g b : Nat) (sh : Option Bool),
      BorderSide.val_read src ss = some (some v) →
      ST_BorderValue.validate v = true →
      BorderSide.sz_read src ss = some (some z) →
      ST_EighthsOfPointMeasure.validate z = true → (3175 : Int) ∣ z →
      BorderSide.space_read src ss = some (some w) →
      ST_PtsMeasure.validate w = true → (12700 : Int) ∣ w →
      BorderSide.color_read src ss = some (some (HexColorValue.rgb r g b)) →
      r < 256 → g < 256 → b < 256 →
      BorderSide.shadow_read src ss = some sh →
      ∃ pb', ParagraphBorder.set_top pb src ss = some pb' ∧
        BorderSide.val_read pb'.elm .top = some (some v) ∧
        BorderSide.sz_read pb'.elm .top = some (some z) ∧
        BorderSide.space_read pb'.elm .top = some (some w) ∧
        BorderSide.color_read pb'.elm .top = some (some (HexColorValue.rgb r g b)) ∧
        BorderSide.shadow_read pb'.elm .top = some sh ∧
        ∀ s', s' ≠ .top → pb'.elm.sideElm s' = pb.elm.sideElm s') ∧
    (∀ (pb : ParagraphBorder) (src : CT_P) (ss : Side) (v : String) (z w : Int)
        (r g b : Nat) (sh : Option Bool),
      BorderSide.val_read src ss = some (some v) →
      ST_BorderValue.validate v = true →
      BorderSide.sz_read src ss = some (some z) →
      ST_EighthsOfPointMeasure.validate z = true → (3175 : Int) ∣ z →
      BorderSide.space_read src ss = some (some w) →
      ST_PtsMeasure.validate w = true → (12700 : Int) ∣ w →
      BorderSide.color_read src ss = some (some (HexColorValue.rgb r g b)) →
      r < 256 → g < 256 → b < 256 →
      BorderSide.shadow_read src ss = some sh →
      ∃ pb', ParagraphBorder.set_bottom pb src ss = some pb' ∧
        BorderSide.val_read pb'.elm .bottom = some (some v) ∧
        BorderSide.sz_read pb'.elm .bottom = some (some z) ∧
        BorderSide.space_read pb'.elm .bottom = some (some w) ∧
        BorderSide.color_read pb'.elm .bottom = some (some (HexColorValue.rgb r g b)) ∧
        BorderSide.shadow_read pb'.elm .bottom = some sh ∧
        ∀ s', s' ≠ .bottom → pb'.elm.sideElm s' = pb.elm.sideElm s') ∧
    (∀ (pb : ParagraphBorder) (src : CT_P) (ss : Side), (pb.get .left).1 = true →
      ParagraphBorder.set_left pb src ss = some (pb.get .left).2 ∧
      (pb.get .left).2.elm = pb.elm) ∧
    (∀ (pb : ParagraphBorder) (src : CT_P) (ss : Side), (pb.get .right).1 = true →
      ParagraphBorder.set_right pb src ss = some (pb.get .right).2 ∧
      (pb.get .right).2.elm = pb.elm) ∧
    (∀ (pb : ParagraphBorder) (src : CT_P) (ss : Side) (v : String) (z w : Int)
        (r g b : Nat) (sh : Option Bool),
      (pb.get .left).1 = false →
      BorderSide.val_read src ss = some (some v) →
      ST_BorderValue.validate v = true →
      BorderSide.sz_read src ss = some (some z) →
      ST_EighthsOfPointMeasure.validate z = true → (3175 : Int) ∣ z →
      BorderSide.space_read src ss = some (some w) →
      ST_PtsMeasure.validate w = true → (12700 : Int) ∣ w →
      BorderSide.color_read src ss = some (some (HexColorValue.rgb r g b)) →
      r < 256 → g < 256 → b < 256 →
      BorderSide.shadow_read src ss = some sh →
      ∃ pb', ParagraphBorder.set_left pb src ss = some pb' ∧
        BorderSide.val_read pb'.elm .left = some (some v) ∧
        BorderSide.sz_read pb'.elm .left = some (some z) ∧
        BorderSide.space_read pb'.elm .left = some (some w) ∧
        BorderSide.color_read pb'.elm .left = some (some (HexColorValue.rgb r g b)) ∧
        BorderSide.shadow_read pb'.elm .left = some sh) ∧
    (∀ (e : CT_P) (s' : Side) (z' : Int) (e' : CT_P), s' ≠ .top →
      BorderSide.set_sz e s' (some z') = some e' →
      BorderSide.sz_read e' .top = BorderSide.sz_read e .top) := by
  refine ⟨?_, ?_, ?_, ?_, ?_, ?_⟩
  · intro pb src ss v z w r g b sh hv hvm hz hzv hzd hw hwv hwd hc hr hg hb2 hsh
    obtain ⟨e', he, h1, h2, h3, h4, h5, h6⟩ :=
      copyFields_spec hv hvm hz hzv hzd hw hwv hwd hc hr hg hb2 hsh
        (if (pb.get .top).1 then (pb.get .top).2
          else (pb.get .top).2.setCache .top).elm .top
    have helm : (if (pb.get .top).1 then (pb.get .top).2
        else (pb.get .top).2.setCache .top).elm = pb.elm := by
      by_cases h : (pb.get .top).1
      · rw [if_pos h, get_elm]
      · rw [if_neg h, setCache_elm, get_elm]
    refine ⟨{ (if (pb.get .top).1 then (pb.get .top).2
        else (pb.get .top).2.setCache .top) with elm := e' },
      ?_, h1, h2, h3, h4, h5, ?_⟩
    · simp only [ParagraphBorder.set_top, he, Option.map_some']
    · intro s' hs'
      rw [show ({ (if (pb.get .top).1 then (pb.get .top).2
          else (pb.get .top).2.setCache .top) with elm := e' } :
          ParagraphBorder).elm = e' from rfl, h6 s' hs', helm]
  · intro pb src ss v z w r g b sh hv hvm hz hzv hzd hw hwv hwd hc hr hg hb2 hsh
    obtain ⟨e', he, h1, h2, h3, h4, h5, h6⟩ :=
      copyFields_spec hv hvm hz hzv hzd hw hwv hwd hc hr hg hb2 hsh
        (if (pb.get .bottom).1 then (pb.get .bottom).2
          else (pb.get .bottom).2.setCache .bottom).elm .bottom
    have helm : (if (pb.get .bottom).1 then (pb.get .bottom).2
        else (pb.get .bottom).2.setCache .bottom).elm = pb.elm := by
      by_cases h : (pb.get .bottom).1
      · rw [if_pos h, get_elm]
      · rw [if_neg h, setCache_elm, get_elm]
    refine ⟨{ (if (pb.get .bottom).1 then (pb.get .bottom).2
        else (pb.get .bottom).2.setCache .bottom) with elm := e' },
      ?_, h1, h2, h3, h4, h5, ?_⟩
    · simp only [ParagraphBorder.set_bottom, he, Option.map_some']
    · intro s' hs'
      rw [show ({ (if (pb.get .bottom).1 then (pb.get .bottom).2
          else (pb.get .bottom).2.setCache .bottom) with elm := e' } :
          ParagraphBorder).elm = e' from rfl, h6 s' hs', helm]
  · intro pb src ss h
    constructor
    · simp only [ParagraphBorder.set_left, h, if_true]
    · exact get_elm pb .left
  · intro pb src ss h
    constructor
    · simp only [ParagraphBorder.set_right, h, if_true]
    · exact get_elm pb .right
  · intro pb src ss v z w r g b sh habs hv hvm hz hzv hzd hw hwv hwd hc hr hg hb2 hsh
    obtain ⟨e', he, h1, h2, h3, h4, h5, _⟩ :=
      copyFields_spec hv hvm hz hzv hzd hw hwv hwd hc hr hg hb2 hsh
        ((pb.get .left).2.setCache .left).elm .left
    refine ⟨{ (pb.get .left).2.setCache .left with elm := e' }, ?_, h1, h2, h3, h4, h5⟩
    simp only [ParagraphBorder.set_left, habs, Bool.false_eq_true, if_false, he,
      Option.map_some']
  · intro e s' z' e' hs' hset
    rcases hto : ST_EighthsOfPointMeasure.to_xml z' with _ | raw
    · rw [BorderSide.set_sz, hto] at hset
      exact absurd hset (by simp)
    · rw [BorderSide.set_sz, hto, Option.some.injEq] at hset
      subst hset
      exact sz_read_congr (sideElm_updateSide_ne e (Ne.symm hs') _)

theorem C4_witness :
    ∃ pb', ParagraphBorder.set_top ⟨⟨none⟩, false, false, false, false⟩
        ⟨some ⟨some ⟨none, some ⟨some "single", some "16", some "3",
          some "00FF3C", none⟩, none, none⟩⟩⟩ .left = some pb' ∧
      BorderSide.sz_read pb'.elm .top = some (some 25400) ∧
      BorderSide.shadow_read pb'.elm .top = some none := by
  obtain ⟨pb', h0, _, h2, _, _, h5, _⟩ :=
    C4_copy_semantics.1 ⟨⟨none⟩, false, false, false, false⟩
      ⟨some ⟨some ⟨none, some ⟨some "single", some "16", some "3",
        some "00FF3C", none⟩, none, none⟩⟩⟩ .left
      "single" 25400 38100 0 255 60 none
      (by decide) (by decide) (by decide) (by decide) (by decide) (by decide)
      (by decide) (by decide) (by decide) (by decide) (by decide) (by decide)
      (by decide)
  exact ⟨pb', h0, h2, h5⟩

/-- C9: on a paragraph with no `pPr`/`pBdr`/side structure, every property
read of every side yields the absent sentinel (reads are pure navigation
and return no modified tree), and a single property write on any one side
creates exactly the `pPr`–`pBdr` ancestor chain plus that one side element
carrying only the written attribute; the last conjunct makes explicit that
the resulting `pBdr` holds the written side and nothing on the other three
sides. -/
theorem C9_lazy_structure :
    (∀ s : Side,
      BorderSide.val_read emptyP s = some none ∧
      BorderSide.sz_read emptyP s = some none ∧
      BorderSide.space_read emptyP s = some none ∧
      BorderSide.color_read emptyP s = some none ∧
      BorderSide.shadow_read emptyP s = some none) ∧
    (∀ s : Side, BorderSide.set_val emptyP s (some "single") =
      some ⟨some ⟨some ((⟨none, none, none, none⟩ : CT_PBdr).setSide s
        (some ⟨some "single", none, none, none, none⟩))⟩⟩) ∧
    (∀ s : Side, BorderSide.set_sz emptyP s (some 25400) =
      some ⟨some ⟨some ((⟨none, none, none, none⟩ : CT_PBdr).setSide s
        (some ⟨none, some "16", none, none, none⟩))⟩⟩) ∧
    (∀ s : Side, BorderSide.set_space emptyP s (some 38100) =
      some ⟨some ⟨some ((⟨none, none, none, none⟩ : CT_PBdr).setSide s
        (some ⟨none, none, some "3", none, none⟩))⟩⟩) ∧
    (∀ s : Side, BorderSide.set_color emptyP s (some (HexColorValue.rgb 0 255 60)) =
      some ⟨some ⟨some ((⟨none, none, none, none⟩ : CT_PBdr).setSide s
        (some ⟨none, none, none, some "00FF3C", none⟩))⟩⟩) ∧
    (∀ s : Side, BorderSide.set_shadow emptyP s (some true) =
      some ⟨some ⟨some ((⟨none, none, none, none⟩ : CT_PBdr).setSide s
        (some ⟨none, none, none, none, some "1"⟩))⟩⟩) ∧
    (∀ s s' : Side, ((⟨none, none, none, none⟩ : CT_PBdr).setSide s
        (some ⟨some "single", none, none, none, none⟩)).side s' =
      if s' = s then some ⟨some "single", none, none, none, none⟩ else none) := by
  refine ⟨?_, ?_, ?_, ?_, ?_, ?_, ?_⟩
  · intro s
    cases s <;> decide
  · intro s
    cases s <;> decide
  · intro s
    cases s <;> decide
  · intro s
    cases s <;> decide
  · intro s
    cases s <;> decide
  · intro s
    cases s <;> decide
  · intro s s'
    cases s <;> cases s' <;> decide

/-- C10: `XsdBoolean.validate` passes on exactly the booleans `True` and
`False` and raises on `None`, so the descriptor-level `to_xml` path rejects
`None` — yet copying an absent shadow never reaches it: the optional
attribute setter removes the attribute when given `None`, so writing
shadow `None` succeeds, get-or-adding the side element but leaving its
shadow attribute absent (and deleting it when present). -/
theorem C10_boolean_none :
    (∀ bb : Bool, XsdBoolean.validate (some bb) = true) ∧
    XsdBoolean.validate none = false ∧
    XsdBoolean.to_xml none = none ∧
    (∀ s : Side, BorderSide.set_shadow emptyP s none =
      some ⟨some ⟨some ((⟨none, none, none, none⟩ : CT_PBdr).setSide s
        (some emptyBorderSide))⟩⟩) ∧
    (∀ s : Side,
      (BorderSide.set_shadow emptyP s none).bind
        (fun e => BorderSide.shadow_read e s) = some none) ∧
    BorderSide.set_shadow
        ⟨some ⟨some ⟨some ⟨some "single", some "16", some "3", some "00FF3C",
          some "1"⟩, none, none, none⟩⟩⟩ .top none =
      some ⟨some ⟨some ⟨some ⟨some "single", some "16", some "3", some "00FF3C",
        none⟩, none, none, none⟩⟩⟩ := by
  refine ⟨fun bb => rfl, rfl, rfl, ?_, ?_, by decide⟩
  · intro s
    cases s <;> decide
  · intro s
    cases s <;> decide

end Docx
